import Mathlib

/-!
Shallow embedding of the schema-inference and typed-value materialization core
of `equinox.py` (seshat-3store): the value parsers, the epistemic classifier,
the type classifier, the schema registry and the document assembler, together
with theorems settling the specification's claims about them.

Python dicts are embedded as insertion-ordered association lists, Python
`None` as `Option.none`, and a Python exception escaping a function as
`Except.error`.  All string handling models the ASCII fragment the data uses.
-/

namespace Equinox

/-- Association-list lookup, modelling a Python dict read (`d[k]` / `k in d`). -/
def alookup {α : Type} : List (String × α) → String → Option α
  | [], _ => Option.none
  | (k, v) :: rest, key => if k = key then some v else alookup rest key

/-- Association-list assignment, modelling Python dict item assignment:
updates in place when the key exists, otherwise appends at the end
(Python dicts preserve insertion order). -/
def aset {α : Type} : List (String × α) → String → α → List (String × α)
  | [], key, v => [(key, v)]
  | (k, w) :: rest, key, v =>
    if k = key then (k, v) :: rest else (k, w) :: aset rest key v

/-- Python `str.lower()` (ASCII). -/
def pyLower (s : String) : String := ⟨s.toList.map Char.toLower⟩

/-- Python `str.upper()` (ASCII). -/
def pyUpper (s : String) : String := ⟨s.toList.map Char.toUpper⟩

/-- Worker for `pyTitle`: the flag records whether the previous character was
alphabetic (cased). -/
def pyTitleGo : Bool → List Char → List Char
  | _, [] => []
  | prevAlpha, c :: cs =>
    if c.isAlpha then
      (if prevAlpha then c.toLower else c.toUpper) :: pyTitleGo true cs
    else
      c :: pyTitleGo false cs

/-- Python `str.title()` (ASCII): the first letter of every alphabetic run is
upper-cased, the rest lower-cased. -/
def pyTitle (s : String) : String := ⟨pyTitleGo false s.toList⟩

/-- Upper-case hex digit for a value below 16. -/
def hexDigitChar (n : Nat) : Char :=
  if n < 10 then Char.ofNat (48 + n) else Char.ofNat (55 + n)

/-- Percent-quote a single character as `urllib.parse.quote` does (ASCII;
default safe set is letters, digits, `_.-~` and `/`). -/
def quoteChar (c : Char) : List Char :=
  if c.isAlphanum || c = '_' || c = '.' || c = '-' || c = '~' || c = '/' then [c]
  else ['%', hexDigitChar (c.toNat / 16), hexDigitChar (c.toNat % 16)]

/-- `urllib.parse.quote` on ASCII strings. -/
def pyQuote (s : String) : String := ⟨(s.toList.map quoteChar).flatten⟩

/-- Python `str.replace` for a single-character pattern. -/
def replaceChar (a b : Char) (s : String) : String :=
  ⟨s.toList.map (fun c => if c = a then b else c)⟩

/-- Python `str.replace(c, "")` for a single-character pattern. -/
def removeChar (a : Char) (s : String) : String :=
  ⟨s.toList.filter (fun c => c != a)⟩

/-- `prop_name` from equinox.py: `quote(name.lower().replace(' ', '_'))`. -/
def prop_name (name : String) : String := pyQuote (replaceChar ' ' '_' (pyLower name))

/-- `class_name` from equinox.py: `quote(name.title().replace(' ', ''))`. -/
def class_name (name : String) : String := pyQuote (removeChar ' ' (pyTitle name))

/-! ### Regular-expression recognisers

Each recogniser below implements exactly one of the (anchored, deterministic)
regular expressions appearing in equinox.py, operating on character lists. -/

/-- `\s*`: drop leading whitespace. -/
def skipWs (cs : List Char) : List Char := cs.dropWhile Char.isWhitespace

/-- Numeric value of a digit run. -/
def digitsVal (ds : List Char) : Nat := ds.foldl (fun n c => 10 * n + (c.toNat - 48)) 0

/-- `\d+` at the head: one or more digits, returning their value and the rest. -/
def takeDigits (cs : List Char) : Option (Nat × List Char) :=
  let ds := cs.takeWhile Char.isDigit
  if ds.isEmpty then Option.none else some (digitsVal ds, cs.dropWhile Char.isDigit)

/-- Consume an exact literal at the head, returning the rest. -/
def dropLit : List Char → List Char → Option (List Char)
  | [], cs => some cs
  | _ :: _, [] => Option.none
  | l :: ls, c :: cs => if c = l then dropLit ls cs else Option.none

/-- Does `cs` start with the literal `pre`?  (`re.match` with a plain-text
pattern.) -/
def startsWithL (pre cs : List Char) : Bool := (dropLit pre cs).isSome

/-- `re.match(pre, s)` for a plain-text pattern `pre`. -/
def pyStartsWith (s pre : String) : Bool := startsWithL pre.toList s.toList

/-- No newline in `cs` (what `.*` may span). -/
def noNl (cs : List Char) : Bool := cs.all (fun c => c != '\n')

/-- `re.match(".*N", s)` for a newline-free literal needle `N`: the needle
occurs with only non-newline characters before it. -/
def dotStar (needle : List Char) : List Char → Bool
  | [] => startsWithL needle []
  | c :: cs => startsWithL needle (c :: cs) || (c != '\n' && dotStar needle cs)

/-- The needle occurs at the head and only non-newline characters follow. -/
def matchHereToEnd (needle cs : List Char) : Bool :=
  match dropLit needle cs with
  | some rest => noNl rest
  | Option.none => false

/-- Worker for `dotStarBoth`. -/
def dotStarBothGo (needle : List Char) : List Char → Bool
  | [] => matchHereToEnd needle []
  | c :: cs => matchHereToEnd needle (c :: cs) || (c != '\n' && dotStarBothGo needle cs)

/-- `$` may match just before one final newline: strip it. -/
def dollarStrip (cs : List Char) : List Char :=
  match cs.reverse with
  | '\n' :: rest => rest.reverse
  | _ => cs

/-- `re.match("^.*N.*$", s)` for a newline-free literal needle `N`. -/
def dotStarBoth (needle cs : List Char) : Bool := dotStarBothGo needle (dollarStrip cs)

/-- The regex `^(\d+)\s*BCE$`. -/
def matchBceDate (cs : List Char) : Option Nat :=
  match takeDigits cs with
  | some (n, rest) => if skipWs rest = ['B', 'C', 'E'] then some n else Option.none
  | Option.none => Option.none

/-- The tail `C?E?$`. -/
def ceTail (cs : List Char) : Bool :=
  cs = [] || cs = ['C'] || cs = ['E'] || cs = ['C', 'E']

/-- The regex `^(\d+)\s*C?E?$`. -/
def matchCeDate (cs : List Char) : Option Nat :=
  match takeDigits cs with
  | some (n, rest) => if ceTail (skipWs rest) then some n else Option.none
  | Option.none => Option.none

/-- The regex `^(\d+)\s*CE$` (the strict form used by `date_gyear`). -/
def matchCeStrict (cs : List Char) : Option Nat :=
  match takeDigits cs with
  | some (n, rest) => if skipWs rest = ['C', 'E'] then some n else Option.none
  | Option.none => Option.none

/-- The common shape `(\d+)\s*-\s*(\d+)` at the head, returning both numbers
and the rest. -/
def matchNumDashNum (cs : List Char) : Option (Nat × Nat × List Char) :=
  match takeDigits cs with
  | some (a, r1) =>
    match skipWs r1 with
    | '-' :: r2 =>
      match takeDigits (skipWs r2) with
      | some (b, r3) => some (a, b, r3)
      | Option.none => Option.none
    | _ => Option.none
  | Option.none => Option.none

/-- The regex alternative `^(\d+)\s*BCE\s*-\s*(\d+)\s*BCE$`. -/
def matchBceDashBce (cs : List Char) : Option (Nat × Nat) :=
  match takeDigits cs with
  | some (a, r1) =>
    match dropLit ['B', 'C', 'E'] (skipWs r1) with
    | some r2 =>
      match skipWs r2 with
      | '-' :: r3 =>
        match takeDigits (skipWs r3) with
        | some (b, r4) => if skipWs r4 = ['B', 'C', 'E'] then some (a, b) else Option.none
        | Option.none => Option.none
      | _ => Option.none
    | Option.none => Option.none
  | Option.none => Option.none

/-- The regex `^(\d+)\s*-\s*(\d+)\s*BCE$|^(\d+)\s*BCE\s*-\s*(\d+)\s*BCE$`. -/
def matchBceDateRange (cs : List Char) : Option (Nat × Nat) :=
  match matchNumDashNum cs with
  | some (a, b, r) => if skipWs r = ['B', 'C', 'E'] then some (a, b) else matchBceDashBce cs
  | Option.none => matchBceDashBce cs

/-- The regex alternative `^(\d+)\s*CE\s*-\s*(\d+)\s*CE$`. -/
def matchCeDashCe (cs : List Char) : Option (Nat × Nat) :=
  match takeDigits cs with
  | some (a, r1) =>
    match dropLit ['C', 'E'] (skipWs r1) with
    | some r2 =>
      match skipWs r2 with
      | '-' :: r3 =>
        match takeDigits (skipWs r3) with
        | some (b, r4) => if skipWs r4 = ['C', 'E'] then some (a, b) else Option.none
        | Option.none => Option.none
      | _ => Option.none
    | Option.none => Option.none
  | Option.none => Option.none

/-- The regex `^(\d+)\s*-\s*(\d+)\s*C?E?$|^(\d+)\s*CE\s*-\s*(\d+)\s*CE$`. -/
def matchCeDateRange (cs : List Char) : Option (Nat × Nat) :=
  match matchNumDashNum cs with
  | some (a, b, r) => if ceTail (skipWs r) then some (a, b) else matchCeDashCe cs
  | Option.none => matchCeDashCe cs

/-- The regex `^(\d+)\s*BCE\s*-\s*(\d+)\s*CE$`. -/
def matchBceDashCe (cs : List Char) : Option (Nat × Nat) :=
  match takeDigits cs with
  | some (a, r1) =>
    match dropLit ['B', 'C', 'E'] (skipWs r1) with
    | some r2 =>
      match skipWs r2 with
      | '-' :: r3 =>
        match takeDigits (skipWs r3) with
        | some (b, r4) => if skipWs r4 = ['C', 'E'] then some (a, b) else Option.none
        | Option.none => Option.none
      | _ => Option.none
    | Option.none => Option.none
  | Option.none => Option.none

/-! ### Value parsers -/

/-- The regex cascade of `date_range_object`, after upper-casing. -/
def date_range_object_go (cs : List Char) : Except String (Int × Int) :=
  match matchBceDate cs with
  | some n => .ok (-(n : Int), -(n : Int))
  | Option.none =>
  match matchCeDate cs with
  | some n => .ok ((n : Int), (n : Int))
  | Option.none =>
  match matchBceDateRange cs with
  | some (a, b) => .ok (-(a : Int), -(b : Int))
  | Option.none =>
  match matchCeDateRange cs with
  | some (a, b) => .ok ((a : Int), (b : Int))
  | Option.none =>
  match matchBceDashCe cs with
  | some (a, b) => .ok ((a : Int), (b : Int))
  | Option.none => .error "Unable to parse date"

/-- `date_range_object` from equinox.py: upper-cases the input, then tries the
five date-range regexes in order; the dict `{'from': f, 'to': t}` is embedded
as the pair `(f, t)`; an unparseable input raises. -/
def date_range_object (date_string : String) : Except String (Int × Int) :=
  date_range_object_go (pyUpper date_string).toList

/-- `date_gyear` from equinox.py: empty string is `None`; `N BCE` is `-N`;
`N CE` is `N`; anything else raises.  No upper-casing happens here and the CE
pattern requires a literal `CE`. -/
def date_gyear (date_string : String) : Except String (Option Int) :=
  if date_string = "" then .ok Option.none
  else
    match matchBceDate date_string.toList with
    | some n => .ok (some (-(n : Int)))
    | Option.none =>
    match matchCeStrict date_string.toList with
    | some n => .ok (some (n : Int))
    | Option.none => .error ("Could not parse date: " ++ date_string)

/-- Python truthiness of an optional integer (`not start` is true for both
`None` and `0`). -/
def pyTruthyInt (o : Option Int) : Bool :=
  match o with
  | some n => n != 0
  | Option.none => false

/-- `date_from_to` from equinox.py: parses each side with `date_gyear`; both
falsy gives `None`; one falsy side is filled from the other. -/
def date_from_to (value_from value_to : String) : Except String (Option (Int × Int)) := do
  let s ← date_gyear value_from
  let e ← date_gyear value_to
  if !pyTruthyInt s && !pyTruthyInt e then
    pure Option.none
  else if !pyTruthyInt s then
    pure (some (e.getD 0, e.getD 0))
  else if !pyTruthyInt e then
    pure (some (s.getD 0, s.getD 0))
  else
    pure (some (s.getD 0, e.getD 0))

/-- Strip surrounding whitespace. -/
def stripWs (cs : List Char) : List Char :=
  ((cs.dropWhile Char.isWhitespace).reverse.dropWhile Char.isWhitespace).reverse

/-- Value of a non-empty all-digit run, `Option.none` otherwise. -/
def allDigitsVal (cs : List Char) : Option Nat :=
  if !cs.isEmpty && cs.all Char.isDigit then some (digitsVal cs) else Option.none

/-- Python `int(...)` applied to a string: optional surrounding whitespace, an
optional sign, then digits.  `Option.none` models a raised `ValueError`. -/
def pyInt (s : String) : Option Int :=
  match stripWs s.toList with
  | '-' :: rest => (allDigitsVal rest).map (fun n => -(n : Int))
  | '+' :: rest => (allDigitsVal rest).map (fun n => (n : Int))
  | cs => (allDigitsVal cs).map (fun n => (n : Int))

/-- The unanchored regex `(\d+)-(\d+)` under `re.match`: a prefix match, the
rest of the string is ignored. -/
def matchRangePat (cs : List Char) : Option (Nat × Nat) :=
  match takeDigits cs with
  | some (a, r1) =>
    match r1 with
    | '-' :: r2 =>
      match takeDigits r2 with
      | some (b, _) => some (a, b)
      | Option.none => Option.none
    | _ => Option.none
  | Option.none => Option.none

/-- `re.match('\d+', s)` succeeds iff the string starts with a digit. -/
def digitStart (s : String) : Bool := (takeDigits s.toList).isSome

/-- `integer_from_to` from equinox.py.  The list `[start, end]` is embedded as
a pair; `.error` models a Python `ValueError` escaping from `int(...)` when an
input starts with digits but is not an integer literal. -/
def integer_from_to (value_from value_to : String) : Except String (Option (Int × Int)) :=
  match matchRangePat value_from.toList with
  | some (a, b) => .ok (some ((a : Int), (b : Int)))
  | Option.none =>
    if digitStart value_from then
      match pyInt value_from with
      | Option.none => .error "ValueError: invalid literal for int"
      | some a =>
        if digitStart value_to then
          match pyInt value_to with
          | Option.none => .error "ValueError: invalid literal for int"
          | some b => .ok (some (a, b))
        else .ok (some (a, a))
    else if digitStart value_to then
      match pyInt value_to with
      | Option.none => .error "ValueError: invalid literal for int"
      | some b => .ok (some (b, b))
    else .ok Option.none

/-- `epistemic` from equinox.py: classifies the certainty marker of a raw
value by prefix match on the text as given (case-sensitive, as in the
source), with a default of `known` for any other non-empty text. -/
def epistemic (value : String) : Option String :=
  if pyStartsWith value "suspected unknown" then some "suspected unknown"
  else if pyStartsWith value "unknown" || pyStartsWith value "uncoded" then some "unknown"
  else if pyStartsWith value "known" then some "known"
  else if pyStartsWith value "inferred" then some "inferred"
  else if pyStartsWith value "disputed" then some "disputed"
  else if value = "" then Option.none
  else some "known"

/-- `presence` from equinox.py. -/
def presence (value : String) : Option String :=
  let v := (pyLower value).toList
  if dotStar "present".toList v then some "present"
  else if dotStar "absent".toList v then some "absent"
  else Option.none

/-- `centralization` from equinox.py: lower-cases and passes through any
non-empty text. -/
def centralization (value : String) : Option String :=
  let v := pyLower value
  if v = "" then Option.none else some v

/-- `supra_polity_relations` from equinox.py. -/
def supra_polity_relations (value : String) : Option String :=
  let v := pyLower value
  if dotStar "vassalage".toList v.toList then some "vassalage"
  else if dotStar "none".toList v.toList then some "none"
  else if dotStar "alliance".toList v.toList then some "alliance"
  else if dotStar "nominal".toList v.toList then some "nominal"
  else if v = "" then Option.none
  else some v

/-! ### Schema registry -/

/-- The eight value classes of the basic schema (the keys of
`Value_Epistemic_Map`). -/
inductive VClass where
  | IntegerValue
  | PresenceValue
  | StringValue
  | DateRangeValue
  | IntegerRangeValue
  | SupraPolityRelationsValue
  | CapitalValue
  | CentralizationValue
deriving DecidableEq, Repr

/-- `Value_Epistemic_Map` from equinox.py. -/
def Value_Epistemic_Map : VClass → String
  | .IntegerValue => "IntegerEpistemic"
  | .PresenceValue => "PresenceEpistemic"
  | .StringValue => "StringEpistemic"
  | .DateRangeValue => "DateRangeEpistemic"
  | .IntegerRangeValue => "IntegerRangeEpistemic"
  | .SupraPolityRelationsValue => "SupraPolityRelationsEpistemic"
  | .CapitalValue => "CapitalEpistemic"
  | .CentralizationValue => "CentralizationEpistemic"

/-- `Epistemic_Value_Map` from equinox.py (the inverted dict); a missing key
is a Python `KeyError`. -/
def Epistemic_Value_Map (s : String) : Option VClass :=
  if s = "IntegerEpistemic" then some .IntegerValue
  else if s = "PresenceEpistemic" then some .PresenceValue
  else if s = "StringEpistemic" then some .StringValue
  else if s = "DateRangeEpistemic" then some .DateRangeValue
  else if s = "IntegerRangeEpistemic" then some .IntegerRangeValue
  else if s = "SupraPolityRelationsEpistemic" then some .SupraPolityRelationsValue
  else if s = "CapitalEpistemic" then some .CapitalValue
  else if s = "CentralizationEpistemic" then some .CentralizationValue
  else Option.none

/-- The schema node built by `epistemic_family`: a subdocument class whose
`@id` is the variable's class name and which inherits the epistemic wrapper
of its value kind (the `@type`/`@subdocument`/`@key` parts are fixed). -/
structure FamilyDef where
  id : String
  inherits : String
deriving DecidableEq, Repr

/-- `epistemic_family` from equinox.py (its `section_class` local is unused
in the source). -/
def epistemic_family (var _sec : String) (value_range : VClass) : FamilyDef :=
  ⟨class_name var, Value_Epistemic_Map value_range⟩

/-- A dynamically-added field on a section/subsection node: an `Optional`
subsection reference or a `Set` variable reference. -/
inductive FieldDef where
  | optionalClass (c : String)
  | setClass (c : String)
deriving DecidableEq, Repr

/-- A section or subsection schema node: its fixed `@id` plus the fields
added while scanning rows. -/
structure SNode where
  id : String
  fields : List (String × FieldDef)
deriving DecidableEq, Repr

/-- The wrapper recorded in `Schema.prop`: a plain class reference, or a
`Set of` reference when the row's value note marks the fact as complex. -/
inductive FamilyWrap where
  | plain (c : String)
  | setOf (c : String)
deriving DecidableEq, Repr

/-- The `Schema` class of equinox.py: four insertion-ordered dicts. -/
structure Schema where
  sections : List (String × SNode)
  subsections : List (String × SNode)
  vars : List (String × FamilyDef)
  prop : List (String × FamilyWrap)
deriving DecidableEq, Repr

/-- `Schema.__init__`. -/
def Schema.empty : Schema := ⟨[], [], [], []⟩

/-- The first statement of `Schema.register`:
`if not (section in self.sections): self.sections[section] = {...}`. -/
def ensureSection (sch : Schema) (sec : String) : Schema :=
  if (alookup sch.sections sec).isSome then sch
  else { sch with sections := aset sch.sections sec ⟨class_name sec, []⟩ }

/-- `Schema.register` from equinox.py: ensures the section node exists,
creates and attaches a never-seen non-empty subsection, and returns the name
of the node that owns subsequently registered variables. -/
def Schema.register (sch : Schema) (sec subsec : String) : Except String (String × Schema) :=
  let subsection_class := class_name subsec
  let subsection_prop := prop_name subsec
  let sch1 := ensureSection sch sec
  if !(subsec == "") && (alookup sch1.subsections subsec).isNone then
    match alookup sch1.sections sec with
    | some node =>
      let node1 := { node with fields := aset node.fields subsection_prop (.optionalClass subsection_class) }
      .ok (subsec,
        { sch1 with
          subsections := aset sch1.subsections subsec ⟨subsection_class, []⟩
          sections := aset sch1.sections sec node1 })
    | Option.none => .error "KeyError"
  else if !(subsec == "") then .ok (subsec, sch1)
  else if (alookup sch1.sections sec).isSome then .ok (sec, sch1)
  else .error "Unable to find section or subsection"

/-- The regex `^\s*\d+\s*$` from `Schema.infer_type`. -/
def integerPat (cs : List Char) : Bool :=
  match takeDigits (skipWs cs) with
  | some (_, rest) => (skipWs rest).isEmpty
  | Option.none => false

/-- The regex `^.*present.*$|^.*absent.*$` from `Schema.infer_type`. -/
def presencePat (cs : List Char) : Bool :=
  dotStarBoth "present".toList cs || dotStarBoth "absent".toList cs

/-- The centralization vocabulary regex from `Schema.infer_type`. -/
def centralizationPat (cs : List Char) : Bool :=
  dotStarBoth "none".toList cs || dotStarBoth "loose".toList cs ||
  dotStarBoth "nominal".toList cs || dotStarBoth "unitary state".toList cs ||
  dotStarBoth "confederated state".toList cs || dotStarBoth "quasi-polity".toList cs ||
  dotStarBoth "polity".toList cs

/-- One `\d+\s*B?C?E?` atom: consume an optional B, C, E in that order. -/
def dropBCEopt (cs : List Char) : List Char :=
  let cs1 := match cs with | 'B' :: t => t | _ => cs
  let cs2 := match cs1 with | 'C' :: t => t | _ => cs1
  match cs2 with | 'E' :: t => t | _ => cs2

/-- Consume `\d+\s*B?C?E?\s*` at the head. -/
def dateAtom (cs : List Char) : Option (List Char) :=
  match takeDigits cs with
  | some (_, r1) => some (skipWs (dropBCEopt (skipWs r1)))
  | Option.none => Option.none

/-- The regex `^\d+\s*B?C?E?\s*$|^\d+\s*B?C?E?\s*-\s*\d+\s*B?C?E?\s*$` from
`Schema.infer_type`. -/
def dateRangePat (cs : List Char) : Bool :=
  match dateAtom cs with
  | some rest =>
    rest.isEmpty ||
    (match rest with
     | '-' :: r2 =>
       (match dateAtom (skipWs r2) with
        | some r3 => r3.isEmpty
        | Option.none => false)
     | _ => false)
  | Option.none => false

/-- `Schema.infer_type` from equinox.py: a memoized, first-wins classifier
(the `value_to`/`value_note` parameters are unused in the source too). -/
def Schema.infer_type (sch : Schema) (var value_from _value_to _value_note sec : String) :
    FamilyDef :=
  match alookup sch.vars var with
  | some ty => ty
  | Option.none =>
    if var = "Capital" then epistemic_family var sec .CapitalValue
    else if var = "Supra-polity relations" then epistemic_family var sec .SupraPolityRelationsValue
    else if integerPat value_from.toList then epistemic_family var sec .IntegerValue
    else if presencePat value_from.toList then epistemic_family var sec .PresenceValue
    else if var = "Degree of centralization" || centralizationPat value_from.toList then
      epistemic_family var sec .CentralizationValue
    else if dateRangePat value_from.toList then epistemic_family var sec .DateRangeValue
    else epistemic_family var sec .StringValue

/-- `Schema.infer_family` from equinox.py (`date_note` is unused in the
source too). -/
def infer_family (typeid value_note _date_note : String) : FamilyWrap :=
  if value_note = "complex" then .setOf typeid else .plain typeid

/-- `Schema.register_variable` from equinox.py: classifies the variable,
attaches it as a set-valued field of its owning section/subsection node and
records the family wrapper; an unknown owner name raises. -/
def Schema.register_variable (sch : Schema)
    (var value_from value_to _date_from _date_to _fact_type value_note date_note _error_note
     section_class : String) : Except String Schema :=
  let ty := sch.infer_type var value_from value_to value_note section_class
  let variable_class := class_name var
  let variable_prop := prop_name var
  match alookup sch.sections section_class with
  | some node =>
    let node1 := { node with fields := aset node.fields variable_prop (.setClass variable_class) }
    let sch1 := { sch with sections := aset sch.sections section_class node1 }
    .ok { sch1 with
          vars := aset sch1.vars var ty
          prop := aset sch1.prop var (infer_family ty.id value_note date_note) }
  | Option.none =>
    match alookup sch.subsections section_class with
    | some node =>
      let node1 := { node with fields := aset node.fields variable_prop (.setClass variable_class) }
      let sch1 := { sch with subsections := aset sch.subsections section_class node1 }
      .ok { sch1 with
            vars := aset sch1.vars var ty
            prop := aset sch1.prop var (infer_family ty.id value_note date_note) }
    | Option.none => .error ("Unknown section title: " ++ section_class)

/-- One input row of the pipe-delimited table (all thirteen fields). -/
structure Row where
  nga : String
  polity : String
  sec : String
  subsec : String
  var : String
  value_from : String
  value_to : String
  date_from : String
  date_to : String
  fact_type : String
  value_note : String
  date_note : String
  error_note : String
deriving DecidableEq, Repr

/-- The row loop of `infer_schema` from equinox.py. -/
def infer_schema_go (sch : Schema) : List Row → Except String Schema
  | [] => .ok sch
  | r :: rows =>
    if r.polity = "Code book" then infer_schema_go sch rows
    else
      match sch.register (pyTitle r.sec) (pyTitle r.subsec) with
      | .error e => .error e
      | .ok (section_class, sch1) =>
        match sch1.register_variable r.var r.value_from r.value_to r.date_from r.date_to
                r.fact_type r.value_note r.date_note r.error_note section_class with
        | .error e => .error e
        | .ok sch2 => infer_schema_go sch2 rows

/-- `infer_schema` from equinox.py, over an in-memory row list (the CSV
reading and header dropping are the caller's concern). -/
def infer_schema (rows : List Row) : Except String Schema :=
  infer_schema_go Schema.empty rows

/-! ### Document assembler -/

/-- A Python value occurring in a value object: a raw string, an integer, an
integer range, a date-range dict, a City dict, or `None`. -/
inductive PyVal where
  | str (s : String)
  | intv (n : Int)
  | intPair (a b : Int)
  | dateRange (f t : Int)
  | city (name : String)
  | pynone
deriving DecidableEq, Repr

/-- The `value_obj` dict built by `epistemic_instance`:
`{'@type': ty, 'value': value, 'date_range'?: ...}`. -/
structure ValueObj where
  ty : String
  value : PyVal
  date_range : Option (Int × Int)
deriving DecidableEq, Repr

/-- The epistemic branch set on a variable object (the two absence branches
carry no payload, as in the `@oneOf` schema). -/
inductive EBranch where
  | known (v : ValueObj)
  | unknown
  | suspected_unknown
  | inferred (v : ValueObj)
deriving DecidableEq, Repr

/-- The `var_obj` dict: `{'@type': ty}` plus at most one epistemic branch. -/
structure VarObj where
  ty : String
  branch : Option EBranch
deriving DecidableEq, Repr

/-- `epistemic_instance` from equinox.py: fills in the epistemic branch of
`var_obj` and returns it; for an unhandled epistemic state (`None` or
`disputed`) it prints a warning and returns Python `None`, leaving `var_obj`
untouched. -/
def epistemic_instance (var_obj : VarObj) (value_type : String) (st : Option String)
    (value : PyVal) (date_range : Option (Int × Int)) : Option VarObj :=
  let value_obj : ValueObj := ⟨value_type, value, date_range⟩
  if value = PyVal.pynone then some { var_obj with branch := some .unknown }
  else if st = some "known" then some { var_obj with branch := some (.known value_obj) }
  else if st = some "unknown" then some { var_obj with branch := some .unknown }
  else if st = some "suspected unknown" then some { var_obj with branch := some .suspected_unknown }
  else if st = some "inferred" then some { var_obj with branch := some (.inferred value_obj) }
  else Option.none

/-- `Schema.infer_value` from equinox.py.  The result is the Python return
value (`Option.none` embeds Python `None`); when the result is a value it is
the updated `var_obj` itself, and when it is `Option.none` the caller's
`var_obj` is unchanged — mirroring the source's in-place mutation. -/
def Schema.infer_value (sch : Schema) (var_obj : VarObj)
    (var value_from value_to date_from date_to _fact_type : String) :
    Except String (Option VarObj) :=
  match alookup sch.vars var with
  | Option.none => .error ("KeyError: " ++ var)
  | some fam =>
    match Epistemic_Value_Map fam.inherits with
    | Option.none => .error ("KeyError: " ++ fam.inherits)
    | some vc =>
      match vc with
      | .StringValue => do
        let date_range ← date_from_to date_from date_to
        let st := epistemic value_from
        pure (epistemic_instance var_obj "StringValue" st (.str value_from) date_range)
      | .IntegerRangeValue => do
        let date_range ← date_from_to date_from date_to
        let st := epistemic value_from
        let ir ← integer_from_to value_from value_to
        pure (epistemic_instance var_obj "IntegerRangeValue" st
          (match ir with | some (a, b) => .intPair a b | Option.none => .pynone) date_range)
      | .IntegerValue => do
        let date_range ← date_from_to date_from date_to
        let st := epistemic value_from
        let ir ← integer_from_to value_from value_to
        pure (epistemic_instance var_obj "IntegerValue" st
          (match ir with | some (a, _) => .intv a | Option.none => .pynone) date_range)
      | .DateRangeValue => do
        let st := epistemic value_from
        if st = some "unknown" then
          pure (epistemic_instance var_obj "DateRangeValue" st .pynone Option.none)
        else do
          let dr ← date_range_object value_from
          pure (epistemic_instance var_obj "DateRangeValue" st (.dateRange dr.1 dr.2) Option.none)
      | .CapitalValue => do
        let date_range ← date_from_to date_from date_to
        let st := epistemic value_from
        if value_from ≠ "" then
          pure (epistemic_instance var_obj "CapitalValue" st (.city value_from) date_range)
        else
          pure Option.none
      | .PresenceValue => do
        let date_range ← date_from_to date_from date_to
        let st := epistemic value_from
        pure (epistemic_instance var_obj "PresenceValue" st
          (match presence value_from with | some s => .str s | Option.none => .pynone) date_range)
      | .CentralizationValue => do
        let date_range ← date_from_to date_from date_to
        let st := epistemic value_from
        pure (epistemic_instance var_obj "CentralizationValue" st
          (match centralization value_from with | some s => .str s | Option.none => .pynone)
          date_range)
      | .SupraPolityRelationsValue => do
        let date_range ← date_from_to date_from date_to
        let st := epistemic value_from
        pure (epistemic_instance var_obj "SupraPolityRelationsValue" st
          (match supra_polity_relations value_from with | some s => .str s | Option.none => .pynone)
          date_range)

/-- A subsection object inside an entity document: its `@type` plus, per
variable prop, the append-ordered envelope list. -/
structure SubObj where
  ty : String
  vars : List (String × List VarObj)
deriving DecidableEq, Repr

/-- An entry of a section object: a nested subsection object or a variable's
envelope list (both live in the same dict key space in the source). -/
inductive SecEntry where
  | sub (o : SubObj)
  | vals (l : List VarObj)
deriving DecidableEq, Repr

/-- A section object inside an entity document. -/
structure SecObj where
  ty : String
  entries : List (String × SecEntry)
deriving DecidableEq, Repr

/-- An entity (polity) document: `{'@id': id, '@type': ty, section props}`. -/
structure PolityDoc where
  id : String
  ty : String
  sections : List (String × SecObj)
deriving DecidableEq, Repr

/-- The `if not (section_prop in polity): polity[section_prop] = {...}`
statement of `extend_polity`. -/
def ensurePolitySection (polity : PolityDoc) (section_prop section_class : String) : PolityDoc :=
  if (alookup polity.sections section_prop).isSome then polity
  else { polity with sections := aset polity.sections section_prop ⟨section_class, []⟩ }

/-- The body of `extend_polity` for a present value: computes the updated
`sections` map of the (section-ensured) document — the only part the source
mutates — or the exception a prop-name collision would raise. -/
def extend_polity_sections (polity1 : PolityDoc) (sec subsec var : String) (v : VarObj) :
    Except String (List (String × SecObj)) :=
  match alookup polity1.sections (prop_name sec) with
  | Option.none => .error "KeyError"
  | some sobj =>
    if subsec ≠ "" then
      match alookup sobj.entries (prop_name subsec) with
      | Option.none =>
        .ok (aset polity1.sections (prop_name sec) ({ sobj with entries := aset sobj.entries (prop_name subsec) (SecEntry.sub ⟨class_name subsec, [(prop_name var, [v])]⟩) }))
      | some (SecEntry.sub so) =>
        let so1 :=
          match alookup so.vars (prop_name var) with
          | some l => { so with vars := aset so.vars (prop_name var) (l ++ [v]) }
          | Option.none => { so with vars := aset so.vars (prop_name var) [v] }
        .ok (aset polity1.sections (prop_name sec) ({ sobj with entries := aset sobj.entries (prop_name subsec) (SecEntry.sub so1) }))
      | some (SecEntry.vals _) => .error "TypeError"
    else
      match alookup sobj.entries (prop_name var) with
      | some (SecEntry.vals l) =>
        .ok (aset polity1.sections (prop_name sec) ({ sobj with entries := aset sobj.entries (prop_name var) (SecEntry.vals (l ++ [v])) }))
      | some (SecEntry.sub _) => .error "AttributeError"
      | Option.none =>
        .ok (aset polity1.sections (prop_name sec) ({ sobj with entries := aset sobj.entries (prop_name var) (SecEntry.vals [v]) }))

/-- `extend_polity` from equinox.py.  The `value` parameter is whatever the
caller passes (in `load_data` it is `var_obj`, not the result of
`infer_value`); Python `None` is `Option.none`.  `extend_polity_sections`
holds the body of the non-`None` case. -/
def extend_polity (polity : PolityDoc) (sec subsec var : String) (value : Option VarObj) :
    Except String PolityDoc :=
  match value with
  | Option.none => .ok polity
  | some v =>
    match extend_polity_sections (ensurePolitySection polity (prop_name sec) (class_name sec))
            sec subsec var v with
    | .error e => .error e
    | .ok s => .ok { ensurePolitySection polity (prop_name sec) (class_name sec) with sections := s }

/-- `Polity_List` from equinox.py: the reserved lineage variables. -/
def Polity_List : List String := ["preceding (quasi)polity", "succeeding (quasi)polity"]

/-- Is this row processed by `load_data` (neither a `Code book` sentinel row
nor a reserved lineage row)? -/
def isDataRow (r : Row) : Bool := !(r.polity == "Code book" || Polity_List.contains r.var)

/-- The running state of the `load_data` row loop: the closed documents plus
the currently open one (`Option.none` embeds the `{'@id': None}` sentinel,
which is never appended to the output). -/
structure LoadState where
  done : List PolityDoc
  cur : Option PolityDoc
deriving DecidableEq, Repr

/-- The entity-boundary check of `load_data` (lines 786-789 of the source):
when the row's `'Polity/' + polity` id differs from the current document's
`@id` (initially Python `None`), a fresh document is opened and the previous
one is closed; returns the closed-documents list and the current document. -/
def entity_boundary (st : LoadState) (pid : String) : List PolityDoc × PolityDoc :=
  match st.cur with
  | some c => if c.id = pid then (st.done, c) else (st.done ++ [c], ⟨pid, "Polity", []⟩)
  | Option.none => (st.done, ⟨pid, "Polity", []⟩)

/-- One iteration of the `load_data` row loop.  Note that, as in the source,
the object handed to `extend_polity` is `var_obj` — not `value`, the result
of `infer_value` — so `extend_polity`'s `None` guard never fires here. -/
def load_step (sch : Schema) (st : LoadState) (r : Row) : Except String LoadState :=
  if isDataRow r then
    match sch.infer_value ⟨class_name r.var, Option.none⟩ r.var r.value_from r.value_to
            r.date_from r.date_to r.value_note with
    | .error e => .error e
    | .ok value =>
      match extend_polity (entity_boundary st ("Polity/" ++ r.polity)).2 (pyTitle r.sec)
              (pyTitle r.subsec) r.var
              (some (value.getD ⟨class_name r.var, Option.none⟩)) with
      | .error e => .error e
      | .ok cur1 => .ok ⟨(entity_boundary st ("Polity/" ++ r.polity)).1, some cur1⟩
  else .ok st

/-- The row loop of `load_data`. -/
def load_data_go (sch : Schema) : LoadState → List Row → Except String LoadState
  | st, [] => .ok st
  | st, r :: rows =>
    match load_step sch st r with
    | .error e => .error e
    | .ok st1 => load_data_go sch st1 rows

/-- `load_data` from equinox.py, over an in-memory row list: folds the rows
into a list of entity documents in order of first appearance of each
contiguous entity block. -/
def load_data (sch : Schema) (rows : List Row) : Except String (List PolityDoc) :=
  match load_data_go sch ⟨[], Option.none⟩ rows with
  | .error e => .error e
  | .ok st => .ok (st.done ++ st.cur.toList)

/-! ### Derived notions used by the claims -/

/-- The rows `load_data` actually processes. -/
def dataRows (rows : List Row) : List Row := rows.filter isDataRow

/-- The `'Polity/' + polity` id of every processed row, in order. -/
def dataIds (rows : List Row) : List String :=
  (dataRows rows).map (fun r => "Polity/" ++ r.polity)

/-- Collapse consecutive duplicates relative to a running "current id": the
ids at which `load_data` opens a new document. -/
def runIds : Option String → List String → List String
  | _, [] => []
  | cur, p :: ps => if some p = cur then runIds cur ps else p :: runIds (some p) ps

/-- The id of the document that is current after a run of ids. -/
def lastId : Option String → List String → Option String
  | c, [] => c
  | _, p :: ps => lastId (some p) ps

/-- The envelope list of a top-level (no subsection) variable of a document. -/
def sectionVar (d : PolityDoc) (sp vp : String) : Option (List VarObj) :=
  match alookup d.sections sp with
  | some so =>
    (match alookup so.entries vp with
     | some (SecEntry.vals l) => some l
     | _ => Option.none)
  | Option.none => Option.none

/-- The envelope list of a subsection variable of a document. -/
def subsectionVar (d : PolityDoc) (sp ssp vp : String) : Option (List VarObj) :=
  match alookup d.sections sp with
  | some so =>
    (match alookup so.entries ssp with
     | some (SecEntry.sub sub) => alookup sub.vars vp
     | _ => Option.none)
  | Option.none => Option.none

/-! ### Helper lemmas -/

lemma alookup_aset_self {α : Type} (l : List (String × α)) (k : String) (v : α) :
    alookup (aset l k v) k = some v := by
  induction l with
  | nil => simp [aset, alookup]
  | cons hd t ih =>
    obtain ⟨k', v'⟩ := hd
    by_cases hk : k' = k
    · simp [aset, hk, alookup]
    · simp [aset, hk, alookup, ih]

lemma ensureSection_isSome (sch : Schema) (sec : String) :
    (alookup (ensureSection sch sec).sections sec).isSome = true := by
  unfold ensureSection
  cases h : alookup sch.sections sec with
  | some v => simp [h]
  | none => simp [h, alookup_aset_self]

lemma ensureSection_subsections (sch : Schema) (sec : String) :
    (ensureSection sch sec).subsections = sch.subsections := by
  unfold ensureSection
  split <;> rfl

lemma ensureSection_vars (sch : Schema) (sec : String) :
    (ensureSection sch sec).vars = sch.vars := by
  unfold ensureSection
  split <;> rfl

lemma ensureSection_of_isSome (sch : Schema) (sec : String)
    (h : (alookup sch.sections sec).isSome = true) : ensureSection sch sec = sch := by
  unfold ensureSection
  rw [if_pos h]

/-- Full success characterization of `Schema.register`: it always succeeds,
returns the subsection name when non-empty (else the section name), and
leaves a state in which the section (and, when non-empty, the subsection)
is registered. -/
lemma register_spec (sch : Schema) (sec subsec : String) :
    ∃ sch', sch.register sec subsec = .ok ((if subsec = "" then sec else subsec), sch') ∧
      (alookup sch'.sections sec).isSome = true ∧
      (subsec = "" ∨ (alookup sch'.subsections subsec).isSome = true) ∧
      sch'.vars = sch.vars := by
  have hsec := ensureSection_isSome sch sec
  have hvars := ensureSection_vars sch sec
  unfold Schema.register
  by_cases hs : subsec = ""
  · subst hs
    refine ⟨ensureSection sch sec, ?_, hsec, Or.inl rfl, hvars⟩
    simp [hsec]
  · have hbeq : (subsec == "") = false := by simp [hs]
    cases hsub : alookup (ensureSection sch sec).subsections subsec with
    | some v =>
      refine ⟨ensureSection sch sec, ?_, hsec, Or.inr (by rw [hsub]; rfl), hvars⟩
      simp [hbeq, hsub, hs]
    | none =>
      cases hnode : alookup (ensureSection sch sec).sections sec with
      | none => rw [hnode] at hsec; simp at hsec
      | some node =>
        refine ⟨{ ensureSection sch sec with subsections := aset (ensureSection sch sec).subsections subsec ⟨class_name subsec, []⟩, sections := aset (ensureSection sch sec).sections sec ({ node with fields := aset node.fields (prop_name subsec) (.optionalClass (class_name subsec)) }) }, ?_, ?_, Or.inr ?_, hvars⟩
        · simp [hbeq, hsub, hnode, hs]
        · simp [alookup_aset_self]
        · simp [alookup_aset_self]

/-- A second registration of an already-registered (section, subsection)
pair changes nothing and returns the same owner. -/
lemma register_stable (sch : Schema) (sec subsec : String)
    (hsec : (alookup sch.sections sec).isSome = true)
    (hsub : subsec = "" ∨ (alookup sch.subsections subsec).isSome = true) :
    sch.register sec subsec = .ok ((if subsec = "" then sec else subsec), sch) := by
  have he : ensureSection sch sec = sch := ensureSection_of_isSome sch sec hsec
  unfold Schema.register
  rw [he]
  rcases hsub with hs | hs
  · subst hs
    simp [hsec]
  · by_cases hq : subsec = ""
    · subst hq
      simp [hsec]
    · cases ho : alookup sch.subsections subsec with
      | none => rw [ho] at hs; simp at hs
      | some v => simp [hq, ho]

/-- `Schema.register` never touches the `variables` map. -/
lemma register_vars (sch : Schema) (sec subsec owner : String) (sch' : Schema)
    (h : sch.register sec subsec = .ok (owner, sch')) : sch'.vars = sch.vars := by
  obtain ⟨sch0, h0, -, -, hv⟩ := register_spec sch sec subsec
  rw [h0] at h
  simp only [Except.ok.injEq, Prod.mk.injEq] at h
  obtain ⟨-, h2⟩ := h
  subst h2
  exact hv

lemma ensurePolitySection_id (p : PolityDoc) (sp sc : String) :
    (ensurePolitySection p sp sc).id = p.id := by
  unfold ensurePolitySection
  split <;> rfl

/-- `extend_polity` never changes the document id. -/
lemma extend_polity_id (p : PolityDoc) (sec subsec varName : String) (val : Option VarObj)
    (p' : PolityDoc) (h : extend_polity p sec subsec varName val = .ok p') : p'.id = p.id := by
  cases val with
  | none =>
    have h2 : Except.ok (ε := String) p = Except.ok p' := h
    injection h2 with h3
    rw [← h3]
  | some vv =>
    cases hc : extend_polity_sections (ensurePolitySection p (prop_name sec) (class_name sec))
        sec subsec varName vv with
    | error e =>
      have h2 : Except.error (α := PolityDoc) e = Except.ok p' := by
        rw [← h]
        simp [extend_polity, hc]
      cases h2
    | ok s =>
      have h2 : Except.ok (ε := String)
          ({ ensurePolitySection p (prop_name sec) (class_name sec) with sections := s }) =
          Except.ok p' := by
        rw [← h]
        simp [extend_polity, hc]
      injection h2 with h3
      rw [← h3]
      exact ensurePolitySection_id p (prop_name sec) (class_name sec)

/-- The ids held in a `load_data` loop state, in output order. -/
def stIds (st : LoadState) : List String :=
  st.done.map PolityDoc.id ++ (st.cur.map PolityDoc.id).toList

lemma dataIds_cons (r : Row) (rows : List Row) :
    dataIds (r :: rows) = dataIds [r] ++ dataIds rows := by
  cases hd : isDataRow r <;> simp [dataIds, dataRows, List.filter_cons, hd]

lemma lastId_append (c : Option String) (l1 l2 : List String) :
    lastId c (l1 ++ l2) = lastId (lastId c l1) l2 := by
  induction l1 generalizing c with
  | nil => simp [lastId]
  | cons p ps ih => simp [lastId, ih]

lemma runIds_append (c : Option String) (l1 l2 : List String) :
    runIds c (l1 ++ l2) = runIds c l1 ++ runIds (lastId c l1) l2 := by
  induction l1 generalizing c with
  | nil => simp [runIds, lastId]
  | cons p ps ih =>
    by_cases h : some p = c
    · simp [runIds, lastId, h, ih]
    · simp [runIds, lastId, h, ih]

lemma entity_boundary_none (st : LoadState) (pid : String) (h : st.cur = Option.none) :
    entity_boundary st pid = (st.done, (⟨pid, "Polity", []⟩ : PolityDoc)) := by
  simp [entity_boundary, h]

lemma entity_boundary_same (st : LoadState) (c : PolityDoc) (pid : String)
    (h : st.cur = some c) (he : c.id = pid) : entity_boundary st pid = (st.done, c) := by
  simp [entity_boundary, h, he]

lemma entity_boundary_new (st : LoadState) (c : PolityDoc) (pid : String)
    (h : st.cur = some c) (he : ¬ c.id = pid) :
    entity_boundary st pid = (st.done ++ [c], (⟨pid, "Polity", []⟩ : PolityDoc)) := by
  simp [entity_boundary, h, he]

/-- Effect of one `load_step` on the ids in the state: a skipped row changes
nothing; a data row opens a new document exactly when its id differs from
the current document's id. -/
lemma load_step_spec (sch : Schema) (st st' : LoadState) (r : Row)
    (h : load_step sch st r = .ok st') :
    stIds st' = stIds st ++ runIds (st.cur.map PolityDoc.id) (dataIds [r]) ∧
    st'.cur.map PolityDoc.id = lastId (st.cur.map PolityDoc.id) (dataIds [r]) := by
  unfold load_step at h
  cases hd : isDataRow r with
  | false =>
    rw [hd] at h
    simp only [Bool.false_eq_true, if_false, Except.ok.injEq] at h
    subst h
    simp [dataIds, dataRows, List.filter_cons, hd, runIds, lastId]
  | true =>
    rw [hd] at h
    simp only [if_true] at h
    have hids : dataIds [r] = ["Polity/" ++ r.polity] := by
      simp [dataIds, dataRows, List.filter_cons, hd]
    rw [hids]
    cases hiv : Schema.infer_value sch ⟨class_name r.var, Option.none⟩ r.var r.value_from
        r.value_to r.date_from r.date_to r.value_note with
    | error e => rw [hiv] at h; exact absurd h (by simp)
    | ok value =>
      simp only [hiv] at h
      cases hcur : st.cur with
      | none =>
        simp only [entity_boundary_none st _ hcur] at h
        cases hep : extend_polity (⟨"Polity/" ++ r.polity, "Polity", []⟩ : PolityDoc)
            (pyTitle r.sec) (pyTitle r.subsec) r.var
            (some (value.getD ⟨class_name r.var, Option.none⟩)) with
        | error e =>
          simp only [hep] at h
          exact Except.noConfusion h
        | ok cur1 =>
          simp only [hep, Except.ok.injEq] at h
          subst h
          have hid := extend_polity_id _ _ _ _ _ _ hep
          simp [stIds, hcur, runIds, lastId, hid]
      | some c =>
        by_cases hceq : c.id = "Polity/" ++ r.polity
        · simp only [entity_boundary_same st c _ hcur hceq] at h
          cases hep : extend_polity c (pyTitle r.sec) (pyTitle r.subsec) r.var
              (some (value.getD ⟨class_name r.var, Option.none⟩)) with
          | error e =>
          simp only [hep] at h
          exact Except.noConfusion h
          | ok cur1 =>
            simp only [hep, Except.ok.injEq] at h
            subst h
            have hid := extend_polity_id _ _ _ _ _ _ hep
            simp [stIds, hcur, runIds, lastId, hid, hceq]
        · simp only [entity_boundary_new st c _ hcur hceq] at h
          cases hep : extend_polity (⟨"Polity/" ++ r.polity, "Polity", []⟩ : PolityDoc)
              (pyTitle r.sec) (pyTitle r.subsec) r.var
              (some (value.getD ⟨class_name r.var, Option.none⟩)) with
          | error e =>
          simp only [hep] at h
          exact Except.noConfusion h
          | ok cur1 =>
            simp only [hep, Except.ok.injEq] at h
            subst h
            have hid := extend_polity_id _ _ _ _ _ _ hep
            have hne : ¬ some ("Polity/" ++ r.polity) = some c.id := by
              intro hx
              injection hx with hx
              exact hceq hx.symm
            simp [stIds, hcur, runIds, lastId, hid, hne]

/-- Effect of the whole `load_data` loop on the ids in the state. -/
lemma load_go_spec (sch : Schema) : ∀ (rows : List Row) (st st' : LoadState),
    load_data_go sch st rows = .ok st' →
    stIds st' = stIds st ++ runIds (st.cur.map PolityDoc.id) (dataIds rows) ∧
    st'.cur.map PolityDoc.id = lastId (st.cur.map PolityDoc.id) (dataIds rows) := by
  intro rows
  induction rows with
  | nil =>
    intro st st' h
    simp only [load_data_go, Except.ok.injEq] at h
    subst h
    simp [dataIds, dataRows, runIds, lastId]
  | cons r rs ih =>
    intro st st' h
    unfold load_data_go at h
    cases hs : load_step sch st r with
    | error e => rw [hs] at h; cases h
    | ok st1 =>
      rw [hs] at h
      obtain ⟨h1, h2⟩ := load_step_spec sch st st1 r hs
      obtain ⟨h3, h4⟩ := ih st1 st' h
      rw [dataIds_cons, runIds_append, lastId_append]
      constructor
      · rw [h3, h1, h2, List.append_assoc]
      · rw [h4, h2]

/-! ### Parser lemmas -/

/-- The five accepted shapes of `date_range_object`, as one decidable test. -/
def dateShapeOk (s : String) : Bool :=
  (matchBceDate (pyUpper s).toList).isSome || (matchCeDate (pyUpper s).toList).isSome ||
  (matchBceDateRange (pyUpper s).toList).isSome || (matchCeDateRange (pyUpper s).toList).isSome ||
  (matchBceDashCe (pyUpper s).toList).isSome

lemma date_range_object_go_error (cs : List Char)
    (h1 : matchBceDate cs = Option.none) (h2 : matchCeDate cs = Option.none)
    (h3 : matchBceDateRange cs = Option.none) (h4 : matchCeDateRange cs = Option.none)
    (h5 : matchBceDashCe cs = Option.none) :
    date_range_object_go cs = .error "Unable to parse date" := by
  simp [date_range_object_go, h1, h2, h3, h4, h5]

lemma date_range_object_error (s : String) (h : dateShapeOk s = false) :
    date_range_object s = .error "Unable to parse date" := by
  unfold dateShapeOk at h
  unfold date_range_object
  cases h1 : matchBceDate (pyUpper s).toList with
  | some n => rw [h1] at h; simp at h
  | none =>
  rw [h1] at h
  cases h2 : matchCeDate (pyUpper s).toList with
  | some n => rw [h2] at h; simp at h
  | none =>
  rw [h2] at h
  cases h3 : matchBceDateRange (pyUpper s).toList with
  | some p => rw [h3] at h; simp at h
  | none =>
  rw [h3] at h
  cases h4 : matchCeDateRange (pyUpper s).toList with
  | some p => rw [h4] at h; simp at h
  | none =>
  rw [h4] at h
  cases h5 : matchBceDashCe (pyUpper s).toList with
  | some p => rw [h5] at h; simp at h
  | none => exact date_range_object_go_error _ h1 h2 h3 h4 h5

lemma date_gyear_ok_none (s : String) (h : date_gyear s = .ok Option.none) : s = "" := by
  by_cases hs : s = ""
  · exact hs
  · exfalso
    unfold date_gyear at h
    rw [if_neg hs] at h
    cases h1 : matchBceDate s.toList with
    | some n => rw [h1] at h; simp at h
    | none =>
      rw [h1] at h
      cases h2 : matchCeStrict s.toList with
      | some n => rw [h2] at h; simp at h
      | none => rw [h2] at h; simp at h

lemma epistemic_none (s : String) (h : epistemic s = Option.none) : s = "" := by
  unfold epistemic at h
  split at h
  · exact Option.noConfusion h
  · split at h
    · exact Option.noConfusion h
    · split at h
      · exact Option.noConfusion h
      · split at h
        · exact Option.noConfusion h
        · split at h
          · exact Option.noConfusion h
          · split at h
            · assumption
            · exact Option.noConfusion h

lemma epistemic_suspected (s : String) (h : pyStartsWith s "suspected unknown" = true) :
    epistemic s = some "suspected unknown" := by
  simp [epistemic, h]

lemma matchRangePat_none_of_no_digit (cs : List Char) (h : (takeDigits cs).isSome = false) :
    matchRangePat cs = Option.none := by
  cases h1 : takeDigits cs with
  | some p => rw [h1] at h; simp at h
  | none => simp [matchRangePat, h1]

lemma integer_from_to_none (vf vt : String) (h1 : digitStart vf = false)
    (h2 : digitStart vt = false) : integer_from_to vf vt = .ok Option.none := by
  have h3 : matchRangePat vf.toList = Option.none :=
    matchRangePat_none_of_no_digit _ (by simpa [digitStart] using h1)
  have h3d : matchRangePat vf.data = Option.none := h3
  simp [integer_from_to, h3d, h1, h2]

lemma integer_from_to_range (vf vt : String) (a b : Nat)
    (h : matchRangePat vf.toList = some (a, b)) :
    integer_from_to vf vt = .ok (some ((a : Int), (b : Int))) := by
  have hd : matchRangePat vf.data = some (a, b) := h
  simp [integer_from_to, hd]

/-- `Schema.register_variable` stores exactly the classification that
`Schema.infer_type` computes for the variable. -/
lemma register_variable_vars (sch : Schema) (v vf vt df dt ft vn dn en sc : String)
    (sch' : Schema) (hr : sch.register_variable v vf vt df dt ft vn dn en sc = .ok sch') :
    alookup sch'.vars v = some (sch.infer_type v vf vt vn sc) := by
  unfold Schema.register_variable at hr
  cases hsec : alookup sch.sections sc with
  | some node =>
    simp only [hsec, Except.ok.injEq] at hr
    subst hr
    exact alookup_aset_self _ _ _
  | none =>
    simp only [hsec] at hr
    cases hsub : alookup sch.subsections sc with
    | some node =>
      simp only [hsub, Except.ok.injEq] at hr
      subst hr
      exact alookup_aset_self _ _ _
    | none =>
      simp only [hsub] at hr
      exact absurd hr (by simp)

/-! ### Concrete fixtures used by the claims -/

/-- Unwrap an `infer_schema` result (the fixtures below are all `.ok`). -/
def extractSchema (e : Except String Schema) : Schema :=
  match e with
  | .ok s => s
  | .error _ => Schema.empty

/-- Unwrap a `load_data` result (the fixtures below are all `.ok`). -/
def extractDocs (e : Except String (List PolityDoc)) : List PolityDoc :=
  match e with
  | .ok l => l
  | .error _ => []

/-- C1 fixture: one row of a String-kind variable `V` (section `A`) whose
raw value text is empty, so the epistemic classifier yields none. -/
def rowC1 : Row := ⟨"", "P1", "A", "", "V", "", "", "", "", "", "", "", ""⟩

def schemaC1 : Schema := extractSchema (infer_schema [rowC1])

/-- The document `load_data` actually builds for `rowC1`: the envelope list
of variable `v` holds one bare `{'@type': 'V'}` object. -/
def docC1 : PolityDoc :=
  ⟨"Polity/P1", "Polity", [("a", ⟨"A", [("v", SecEntry.vals [⟨"V", Option.none⟩])]⟩)]⟩

/-- C2 fixture: the synthetic two-row input of the claim. -/
def rowC2x : Row :=
  ⟨"", "P1", "Section A", "", "Variable X", "known, some text", "", "", "", "", "", "", ""⟩

def rowC2y : Row :=
  ⟨"", "P1", "Section A", "Subsection B", "Variable Y", "42", "", "", "", "", "", "", ""⟩

def rowsC2 : List Row := [rowC2x, rowC2y]

def schemaC2 : Schema := extractSchema (infer_schema rowsC2)

/-- The envelope built for Variable X: `known` with the raw text verbatim. -/
def envC2x : VarObj :=
  ⟨"VariableX", some (.known ⟨"StringValue", .str "known, some text", Option.none⟩)⟩

/-- The envelope built for Variable Y: `known` with the integer 42. -/
def envC2y : VarObj := ⟨"VariableY", some (.known ⟨"IntegerValue", .intv 42, Option.none⟩)⟩

/-- The entity document `load_data` builds for `rowsC2`. -/
def docC2 : PolityDoc :=
  ⟨"Polity/P1", "Polity", [("section_a", ⟨"SectionA", [("variable_x", SecEntry.vals [envC2x]), ("subsection_b", SecEntry.sub ⟨"SubsectionB", [("variable_y", [envC2y])]⟩)]⟩)]⟩

/-- C8 witness fixture: a family already stored for variable `X`. -/
def famW : FamilyDef := ⟨"X", "StringEpistemic"⟩

def schW : Schema := ⟨[("S", ⟨"S", []⟩)], [], [("X", famW)], []⟩

/-- C9 witness fixture: the entity id `A` reappears after a `B` block. -/
def rowW1 : Row := ⟨"", "A", "S", "", "V", "x", "", "", "", "", "", "", ""⟩

def rowW2 : Row := ⟨"", "B", "S", "", "V", "y", "", "", "", "", "", "", ""⟩

def rowW3 : Row := ⟨"", "A", "S", "", "V", "z", "", "", "", "", "", "", ""⟩

def rowsC9 : List Row := [rowW1, rowW2, rowW3]

def schemaC9 : Schema := extractSchema (infer_schema rowsC9)

def docsC9 : List PolityDoc := extractDocs (load_data schemaC9 rowsC9)

/-! ### The claims -/

/-- C1: the spec says a row whose computed envelope represents an
absent/unparseable value (epistemic classifier yielding none on the raw
text, or an empty Capital text) is dropped — nothing is appended for that
row.  The code is wrong here: `load_data` passes `var_obj` — not `value`,
the result of `infer_value` — to `extend_polity`, whose `if value is None`
guard therefore never fires; so although `infer_value` returns the drop
signal (Python `None`), a bare `{'@type': 'V'}` envelope is still appended
to the variable's list. -/
theorem c1_drop_signal_ignored :
    infer_schema [rowC1] = .ok schemaC1 ∧
    epistemic rowC1.value_from = Option.none ∧
    Schema.infer_value schemaC1 ⟨"V", Option.none⟩ "V" "" "" "" "" "" = .ok Option.none ∧
    load_data schemaC1 [rowC1] = .ok [docC1] ∧
    sectionVar docC1 "a" "v" = some [⟨"V", Option.none⟩] :=
  ⟨rfl, rfl, rfl, rfl, rfl⟩

/-- C2 counterexample: on the claim's two-row input the String-kind envelope
stores the raw text `"known, some text"` verbatim, so the claim's expected
value `"some text"` (epistemic marker stripped) is wrong. -/
theorem c2_counterexample :
    load_data schemaC2 rowsC2 = .ok [docC2] ∧
    sectionVar docC2 "section_a" "variable_x" = some [envC2x] ∧
    envC2x.branch = some (.known ⟨"StringValue", .str "known, some text", Option.none⟩) ∧
    sectionVar docC2 "section_a" "variable_x" ≠
      some [⟨"VariableX", some (.known ⟨"StringValue", .str "some text", Option.none⟩)⟩] :=
  ⟨rfl, rfl, rfl, by decide⟩

/-- C2 (amended): on the claim's two-row input the assembled Entity Document
has `section_a.variable_x == [{known, "known, some text"}]` — the raw text
verbatim, the `known,` marker not stripped — and
`section_a.subsection_b.variable_y == [{known, 42}]`. -/
theorem c2_amended :
    infer_schema rowsC2 = .ok schemaC2 ∧
    load_data schemaC2 rowsC2 = .ok [docC2] ∧
    sectionVar docC2 "section_a" "variable_x" = some [envC2x] ∧
    subsectionVar docC2 "section_a" "subsection_b" "variable_y" = some [envC2y] :=
  ⟨rfl, rfl, rfl, rfl⟩

/-- C3 counterexample: `date_range_object "50BCE-30CE"` evaluates to the
all-positive pair `(50, 30)` — not a mixed-sign pair with a negative first
component, as the claim states. -/
theorem c3_counterexample :
    date_range_object "50BCE-30CE" = .ok (50, 30) ∧
    ¬ (∃ a b : Int, date_range_object "50BCE-30CE" = .ok (a, b) ∧ a < 0 ∧ 0 < b) := by
  refine ⟨rfl, ?_⟩
  rintro ⟨a, b, h, ha, hb⟩
  have h2 : (Except.ok ((50 : Int), (30 : Int)) : Except String (Int × Int)) = .ok (a, b) := h
  injection h2 with h3
  have ha50 : (50 : Int) = a := congrArg Prod.fst h3
  omega

/-- C3 (amended): `date_range_object` accepts exactly the five shapes, tried
in priority order, and inverts the canonical formatter on the single-year
and same-era range shapes; on the mixed BCE-to-CE shape both numbers keep
their literal positive magnitudes (`"50BCE-30CE"` gives `(50, 30)`, not a
mixed-sign pair); every input matching none of the five shapes raises a
ParseError. -/
theorem c3_amended :
    date_range_object "150BCE" = .ok (-150, -150) ∧
    date_range_object "20BCE-10BCE" = .ok (-20, -10) ∧
    date_range_object "100-150" = .ok (100, 150) ∧
    date_range_object "50BCE-30CE" = .ok (50, 30) ∧
    (∀ s : String, dateShapeOk s = false →
      date_range_object s = .error "Unable to parse date") :=
  ⟨rfl, rfl, rfl, rfl, date_range_object_error⟩

/-- C3 witness: the amended theorem applied at the concrete non-matching
input `"junk"`. -/
theorem c3_amended_witness :
    dateShapeOk "junk" = false ∧
    date_range_object "junk" = Except.error "Unable to parse date" :=
  ⟨rfl, c3_amended.2.2.2.2 "junk" rfl⟩

/-- C4 counterexample: a bare year `"150"` raises a ParseError in
`date_gyear` instead of returning 150 as the claim states. -/
theorem c4_counterexample :
    date_gyear "150" = .error "Could not parse date: 150" ∧
    date_gyear "150" ≠ .ok (some 150) := by
  refine ⟨rfl, fun h => ?_⟩
  have h2 : (Except.error "Could not parse date: 150" :
      Except String (Option Int)) = .ok (some 150) := h
  exact Except.noConfusion h2

/-- C4 (amended): `date_gyear` returns none exactly on the empty string,
`-N` on `"N BCE"`, `N` on `"N CE"`, and raises a ParseError on every other
non-empty input — including a bare `"N"`, for which the original claim said
it returns `N`. -/
theorem c4_amended :
    date_gyear "" = .ok Option.none ∧
    date_gyear "150 BCE" = .ok (some (-150)) ∧
    date_gyear "150 CE" = .ok (some 150) ∧
    date_gyear "150" = .error "Could not parse date: 150" ∧
    (∀ s : String, date_gyear s = .ok Option.none → s = "") :=
  ⟨rfl, rfl, rfl, rfl, date_gyear_ok_none⟩

/-- C4 witness: the amended theorem applied at the empty string. -/
theorem c4_amended_witness :
    date_gyear "" = Except.ok Option.none ∧ ("" : String) = "" :=
  ⟨c4_amended.1, c4_amended.2.2.2.2 "" c4_amended.1⟩

/-- C5 counterexample: `epistemic` does not lower-case its input.  On
`"Unknown"` the claim (which checks the lower-cased text) prescribes
`unknown`, but the code returns the default `known`. -/
theorem c5_counterexample :
    epistemic "Unknown" = some "known" ∧
    pyLower "Unknown" = "unknown" ∧
    epistemic (pyLower "Unknown") = some "unknown" ∧
    (some "known" : Option String) ≠ some "unknown" :=
  ⟨rfl, rfl, rfl, by decide⟩

/-- C5 (amended): `epistemic` checks, in order, whether the input text as
given (case-sensitively, not lower-cased) starts with "suspected unknown",
then "unknown"/"uncoded", then "known", then "inferred", then "disputed";
empty text yields none, and only empty text does; any other non-empty text
defaults to `known`. -/
theorem c5_amended :
    epistemic "suspected unknown, low confidence" = some "suspected unknown" ∧
    epistemic "unknown (uncoded)" = some "unknown" ∧
    epistemic "" = Option.none ∧
    epistemic "300 people" = some "known" ∧
    epistemic "Unknown" = some "known" ∧
    (∀ s : String, epistemic s = Option.none → s = "") ∧
    (∀ s : String, pyStartsWith s "suspected unknown" = true →
      epistemic s = some "suspected unknown") :=
  ⟨rfl, rfl, rfl, rfl, rfl, epistemic_none, epistemic_suspected⟩

/-- C5 witness: the amended theorem's precedence clause applied at a
concrete input. -/
theorem c5_amended_witness :
    pyStartsWith "suspected unknown, maybe" "suspected unknown" = true ∧
    epistemic "suspected unknown, maybe" = some "suspected unknown" :=
  ⟨rfl, c5_amended.2.2.2.2.2.2 "suspected unknown, maybe" rfl⟩

/-- C6 counterexample: `integer_from_to` is not total — on `("12abc", "")`
the text starts with digits, so `int("12abc")` is executed and raises a
ValueError; the function raises instead of returning a pair or none. -/
theorem c6_counterexample :
    integer_from_to "12abc" "" = .error "ValueError: invalid literal for int" ∧
    (∀ o : Option (Int × Int), integer_from_to "12abc" "" ≠ .ok o) := by
  refine ⟨rfl, fun o h => ?_⟩
  have h2 : (Except.error "ValueError: invalid literal for int" :
      Except String (Option (Int × Int))) = .ok o := h
  exact Except.noConfusion h2

/-- C6 (amended): on the claim's inputs `integer_from_to` behaves as
described, it returns none when neither input starts with a digit, and an
`"N-M"` prefix of the from-text yields `(N, M)`; but when a consulted input
starts with a digit and is not an integer literal, the `int(...)` conversion
raises a ValueError — "never raises" fails. -/
theorem c6_amended :
    integer_from_to "120-180" "" = .ok (some (120, 180)) ∧
    integer_from_to "120" "" = .ok (some (120, 120)) ∧
    integer_from_to "" "90" = .ok (some (90, 90)) ∧
    integer_from_to "" "" = .ok Option.none ∧
    (∀ vf vt : String, digitStart vf = false → digitStart vt = false →
      integer_from_to vf vt = .ok Option.none) ∧
    (∀ vf vt : String, ∀ a b : Nat, matchRangePat vf.toList = some (a, b) →
      integer_from_to vf vt = .ok (some ((a : Int), (b : Int)))) :=
  ⟨rfl, rfl, rfl, rfl, integer_from_to_none, integer_from_to_range⟩

/-- C6 witness: the amended theorem's none clause applied at concrete
inputs. -/
theorem c6_amended_witness :
    digitStart "abc" = false ∧ integer_from_to "abc" "xyz" = Except.ok Option.none :=
  ⟨rfl, c6_amended.2.2.2.2.1 "abc" "xyz" rfl rfl⟩

/-- C7: `Schema.register` is idempotent — the first call returns an owner
and a state, and calling register again on that state returns the same
owner and the very same state (sections and subsections maps unchanged, no
duplicate node created); the owner is the subsection when non-empty, else
the section. -/
theorem c7_register_idempotent (sch : Schema) (sec subsec : String) :
    ∃ owner sch', sch.register sec subsec = .ok (owner, sch') ∧
      sch'.register sec subsec = .ok (owner, sch') ∧
      owner = (if subsec = "" then sec else subsec) := by
  obtain ⟨sch', h1, hsec, hsub, -⟩ := register_spec sch sec subsec
  exact ⟨_, sch', h1, register_stable sch' sec subsec hsec hsub, rfl⟩

/-- C8: variable classification is first-wins and memoized — once the
variables map stores a kind for a name, `infer_type` returns it unchanged
regardless of the new sample value, and neither `register` nor
`register_variable` ever replaces the stored entry. -/
theorem c8_classification_first_wins (sch : Schema) (v : String) (k : FamilyDef)
    (h : alookup sch.vars v = some k) :
    (∀ vf vt vn sc, sch.infer_type v vf vt vn sc = k) ∧
    (∀ sec subsec owner sch', sch.register sec subsec = .ok (owner, sch') →
      alookup sch'.vars v = some k) ∧
    (∀ vf vt df dt ft vn dn en sc sch',
      sch.register_variable v vf vt df dt ft vn dn en sc = .ok sch' →
      alookup sch'.vars v = some k) := by
  have hit : ∀ vf vt vn sc, sch.infer_type v vf vt vn sc = k := by
    intro vf vt vn sc
    simp [Schema.infer_type, h]
  refine ⟨hit, ?_, ?_⟩
  · intro sec subsec owner sch' hr
    rw [register_vars sch sec subsec owner sch' hr]
    exact h
  · intro vf vt df dt ft vn dn en sc sch' hr
    have hv := register_variable_vars sch v vf vt df dt ft vn dn en sc sch' hr
    rw [hit vf vt vn sc] at hv
    exact hv

/-- C8 witness: variable `X` is stored as String-kind; a later sample `999`
(which classifies as Integer on its own) does not change the result. -/
theorem c8_classification_first_wins_witness :
    alookup schW.vars "X" = some famW ∧
    Schema.infer_type schW "X" "999" "" "" "S" = famW :=
  ⟨rfl, (c8_classification_first_wins schW "X" famW rfl).1 "999" "" "" "S"⟩

/-- C9: `load_data` opens a new Entity Document exactly when a data row's
entity id differs from the immediately preceding data row's id — the ids of
the output documents are exactly the consecutive-duplicate-collapsed
data-row ids, so a reappearing id yields a second, separate document
appended in order, never a merge with the earlier one. -/
theorem c9_entity_boundaries (sch : Schema) (rows : List Row) (ps : List PolityDoc)
    (h : load_data sch rows = .ok ps) :
    ps.map PolityDoc.id = runIds Option.none (dataIds rows) := by
  unfold load_data at h
  cases hg : load_data_go sch ⟨[], Option.none⟩ rows with
  | error e => rw [hg] at h; exact absurd h (by simp)
  | ok st =>
    rw [hg] at h
    simp only [Except.ok.injEq] at h
    subst h
    have hspec := (load_go_spec sch rows ⟨[], Option.none⟩ st hg).1
    simp only [stIds] at hspec
    cases hcur : st.cur with
    | none => rw [hcur] at hspec; simpa using hspec
    | some c => rw [hcur] at hspec; simpa using hspec

/-- C9 witness: three rows with entity ids A, B, A produce three documents
with ids `[Polity/A, Polity/B, Polity/A]` — the reappearing id gets a fresh
document appended at the end, distinct from the earlier one. -/
theorem c9_entity_boundaries_witness :
    load_data schemaC9 rowsC9 = Except.ok docsC9 ∧
    docsC9.map PolityDoc.id = runIds Option.none (dataIds rowsC9) ∧
    docsC9.map PolityDoc.id = ["Polity/A", "Polity/B", "Polity/A"] ∧
    docsC9[0]? ≠ docsC9[2]? :=
  ⟨rfl, c9_entity_boundaries schemaC9 rowsC9 docsC9 rfl, rfl, by decide⟩

/-- C10: the failure branch of `Schema.register` is unreachable — for every
state and every pair of names, register succeeds (the section having been
put into the sections map first) and returns the subsection name when
non-empty, else the section name. -/
theorem c10_register_never_fails (sch : Schema) (sec subsec : String) :
    ∃ sch', sch.register sec subsec = .ok ((if subsec = "" then sec else subsec), sch') ∧
      (alookup sch'.sections sec).isSome = true := by
  obtain ⟨sch', h1, hsec, -, -⟩ := register_spec sch sec subsec
  exact ⟨sch', h1, hsec⟩

end Equinox
